import Mathlib

/-!
Verification of `common/sys_unix.c`.

A shallow embedding of the Unix system layer: the frame-pacing loop of `main`,
the console output filter `Sys_Printf`, the time source `Sys_DoubleTime`, the
console reader `Sys_ConsoleInput` and the two termination routines `Sys_Quit`
and `Sys_Error`.

Conventions of the embedding.

* C `double` and `float` values are rationals: every comparison and every
  assignment of the source is kept, arithmetic is exact (no rounding, no NaN).
* Bytes (`unsigned char`) are naturals below 256; C strings are lists of bytes
  read up to the first zero byte.
* C `int` values are integers; the one narrowing assignment of the file
  (`secbase = tp.tv_sec`) is an explicit wrap to 32 bits.
* Calls that leave the file (`Host_Frame`, `usleep`, `Host_Shutdown`, `exit`,
  `fcntl`, `read`, `gettimeofday`) are explicit: their results are inputs of
  the model and their invocations are recorded in the state or in a trace.
-/

namespace SysUnix

/-! ## The main loop (`main`, lines 292-312) -/

/-- A call that one pass of the main loop makes to the outside. -/
inductive Call where
  | usleep (usec : Nat)
  | Host_Frame (time : ℚ)
  deriving DecidableEq, Repr

/-- What one pass of the loop body reads from its environment: the value of
`cls.state == ca_dedicated`, of `sys_ticrate.value`, and the result of the
call `Sys_DoubleTime()` that is assigned to `newtime`. -/
structure LoopInput where
  dedicated : Bool
  ticrate : ℚ
  newtime : ℚ
  deriving DecidableEq, Repr

/-- The state after one pass of the loop body: the local `oldtime`, and the
outside calls the pass made, in order. -/
structure IterResult where
  oldtime : ℚ
  calls : List Call
  deriving DecidableEq, Repr

/-- Lines 306-311: the update of `oldtime` followed by `Host_Frame(time)`. -/
def driftAndDispatch (oldtime newtime ticrate time : ℚ) : IterResult :=
  if time > ticrate * 2 then
    { oldtime := newtime, calls := [Call.Host_Frame time] }
  else
    { oldtime := oldtime + time, calls := [Call.Host_Frame time] }

/-- One pass of the body of `while (1)` (lines 296-311). -/
def mainIter (oldtime : ℚ) (inp : LoopInput) : IterResult :=
  let newtime := inp.newtime
  let time := newtime - oldtime
  if inp.dedicated then
    if time < inp.ticrate then
      -- usleep(1); continue;
      { oldtime := oldtime, calls := [Call.usleep 1] }
    else
      let time := inp.ticrate
      driftAndDispatch oldtime newtime inp.ticrate time
  else
    driftAndDispatch oldtime newtime inp.ticrate time

/-- The loop run over a finite sequence of passes, each with its own
environment reading: the final `oldtime` and the trace of outside calls. -/
def mainLoop (oldtime : ℚ) : List LoopInput → IterResult
  | [] => { oldtime := oldtime, calls := [] }
  | inp :: rest =>
    let r := mainIter oldtime inp
    let r2 := mainLoop r.oldtime rest
    { oldtime := r2.oldtime, calls := r.calls ++ r2.calls }

/-- Line 292: the initial value of `oldtime`, from the first clock reading. -/
def initialOldtime (firstReading : ℚ) : ℚ := firstReading - 1 / 10

/-- The elapsed times handed to `Host_Frame` in a trace, in order. -/
def frameTimes : List Call → List ℚ
  | [] => []
  | Call.Host_Frame t :: cs => t :: frameTimes cs
  | Call.usleep _ :: cs => frameTimes cs

/-- A run in dedicated mode at a constant tick rate over the given clock
readings. -/
def headlessInputs (ticrate : ℚ) (readings : List ℚ) : List LoopInput :=
  readings.map (fun t => { dedicated := true, ticrate := ticrate, newtime := t })

/-- A run in interactive mode at a constant tick rate over the given clock
readings. -/
def interactiveInputs (ticrate : ℚ) (readings : List ℚ) : List LoopInput :=
  readings.map (fun t => { dedicated := false, ticrate := ticrate, newtime := t })

/-! ## Console output (`Sys_Printf`, lines 58-78) -/

/-- The character `printf` writes for one hexadecimal digit under `%x`:
`'0'`..`'9'`, then lowercase `'a'`..`'f'`. -/
def hexDigit (d : Nat) : Nat :=
  if d < 10 then 48 + d else 87 + d

/-- The bytes written by `printf("[%02x]", *p)` for an `unsigned char`. -/
def printfEscape (b : Nat) : List Nat :=
  [91, hexDigit (b / 16), hexDigit (b % 16), 93]

/-- The loop `for (p = text; *p; p++)` of lines 72-77 over the bytes of the
buffer, returning the bytes written to `stdout`. It stops at the first zero
byte. -/
def printLoop : List Nat → List Nat
  | [] => []
  | p :: rest =>
    if p = 0 then []
    else if (p > 128 ∨ p < 32) ∧ p ≠ 10 ∧ p ≠ 13 ∧ p ≠ 9 then
      printfEscape p ++ printLoop rest
    else
      p :: printLoop rest

/-- The bytes `Sys_Printf` writes to `stdout`; `text` is the content of the
local buffer after `qvsnprintf`, `nostdout` the file-level flag. -/
def Sys_Printf (nostdout : Bool) (text : List Nat) : List Nat :=
  if nostdout then [] else printLoop text

/-- The bytes that may reach a terminal unescaped according to the
specification: tab, newline, carriage return and printable ASCII. -/
def passesRaw (b : Nat) : Bool :=
  b = 9 || b = 10 || b = 13 || (32 ≤ b && b ≤ 126)

/-- The rendering of one byte in the words of the specification: a byte that
passes raw is itself, any other byte is its bracketed two-digit escape. -/
def specRender (b : Nat) : List Nat :=
  if passesRaw b then [b] else printfEscape b

/-- The output of the sanitizer in the words of the specification: the
renderings of the bytes, in order. -/
def specEmit : List Nat → List Nat
  | [] => []
  | b :: rest => specRender b ++ specEmit rest

/-! ## Time source (`Sys_DoubleTime`, lines 144-159) -/

/-- The value of `struct timeval` that `gettimeofday` stores. -/
structure Timeval where
  tv_sec : Int
  tv_usec : Int
  deriving DecidableEq, Repr

/-- Conversion of a `time_t` value to the 32-bit `int` of `secbase`. -/
def toInt32 (x : Int) : Int :=
  (x + 2 ^ 31) % 2 ^ 32 - 2 ^ 31

/-- One call of `Sys_DoubleTime`: from the value of the static `secbase`
before the call and the clock reading, the value of `secbase` after the call
and the value returned. -/
def Sys_DoubleTime (secbase : Int) (tp : Timeval) : Int × ℚ :=
  if secbase = 0 then
    (toInt32 tp.tv_sec, (tp.tv_usec : ℚ) / 1000000)
  else
    (secbase, ((tp.tv_sec - secbase : Int) : ℚ) + (tp.tv_usec : ℚ) / 1000000)

/-- Successive calls of `Sys_DoubleTime`, one per clock reading, starting
with the given `secbase`: the final `secbase` and the values returned. -/
def doubleTimeCalls (secbase : Int) : List Timeval → Int × List ℚ
  | [] => (secbase, [])
  | tp :: rest =>
    let r := Sys_DoubleTime secbase tp
    let r2 := doubleTimeCalls r.1 rest
    (r2.1, r.2 :: r2.2)

/-- The values of `secbase` after each of the successive calls. -/
def secbaseHistory (secbase : Int) : List Timeval → List Int
  | [] => []
  | tp :: rest =>
    (Sys_DoubleTime secbase tp).1 :: secbaseHistory (Sys_DoubleTime secbase tp).1 rest

/-- The clock does not move backward from reading `a` to reading `b`. -/
def Timeval.le (a b : Timeval) : Prop :=
  a.tv_sec < b.tv_sec ∨ (a.tv_sec = b.tv_sec ∧ a.tv_usec ≤ b.tv_usec)

instance (a b : Timeval) : Decidable (Timeval.le a b) := by
  unfold Timeval.le
  exact inferInstance

/-! ## Console input (`Sys_ConsoleInput`, lines 169-193) -/

/-- What `read(STDIN_FILENO, text, sizeof(text))` did: it failed, or it
stored the given bytes at the start of the buffer (none at end of file). -/
inductive ReadResult where
  | error
  | bytes (data : List Nat)
  deriving DecidableEq, Repr

/-- The return value of `read`. -/
def ReadResult.len : ReadResult → Int
  | ReadResult.error => -1
  | ReadResult.bytes data => data.length

/-- The buffer after `read`: the bytes read, then the old content. -/
def ReadResult.store (text : List Nat) : ReadResult → List Nat
  | ReadResult.error => text
  | ReadResult.bytes data => data ++ text.drop data.length

/-- The C string that starts at the beginning of a buffer. -/
def cString (buf : List Nat) : List Nat :=
  buf.takeWhile (fun b => b ≠ 0)

/-- One call of `Sys_ConsoleInput`. Inputs: `cls.state == ca_dedicated`, the
return value of `select`, the value of `FD_ISSET` after it, the outcome of
`read`, and the static buffer `text` before the call. Result: the returned
string (`none` for `NULL`) and the buffer after the call. -/
def Sys_ConsoleInput (dedicated : Bool) (selectRet : Int) (fdIsSet : Bool)
    (rd : ReadResult) (text : List Nat) : Option (List Nat) × List Nat :=
  if ¬ dedicated then (none, text)
  else if selectRet = -1 ∨ ¬ fdIsSet then (none, text)
  else
    let text1 := rd.store text
    let len := rd.len
    if len < 1 then (none, text1)
    else
      let text2 := text1.set (len - 1).toNat 0
      (some (cString text2), text2)

/-- The line terminator `'\n'`. -/
def newline : Nat := 10

/-! ## Termination (`Sys_Quit`, lines 80-88; `Sys_Error`, lines 101-118) -/

/-- The part of the process state the termination routines act on: the file
status flags of standard input, the number of calls of `Host_Shutdown`, the
bytes written to `stderr`, and the status passed to `exit` once it is
called. -/
structure ProcState where
  stdinFlags : Int
  shutdowns : Nat
  stderr : List Nat
  exitStatus : Option Int
  deriving DecidableEq, Repr

/-- The call `Host_Shutdown()`, as far as this state goes. -/
def Host_Shutdown (s : ProcState) : ProcState :=
  { s with shutdowns := s.shutdowns + 1 }

/-- The call `fcntl(STDIN_FILENO, F_GETFL, 0)`. -/
def fcntlGetfl (s : ProcState) : Int :=
  s.stdinFlags

/-- The call `fcntl(STDIN_FILENO, F_SETFL, v)`. -/
def fcntlSetfl (s : ProcState) (v : Int) : ProcState :=
  { s with stdinFlags := v }

/-- The call `exit(status)`. -/
def exitWith (s : ProcState) (status : Int) : ProcState :=
  { s with exitStatus := some status }

/-- The routine `Sys_Quit`; `O_NONBLOCK` is the constant of `<fcntl.h>`. -/
def Sys_Quit (O_NONBLOCK : Int) (s : ProcState) : ProcState :=
  let s := Host_Shutdown s
  let s := fcntlSetfl s (Int.land (fcntlGetfl s) (Int.lnot O_NONBLOCK))
  -- fflush(stdout)
  exitWith s 0

/-- The bytes of `"Error: %s\n"` for the formatted message. -/
def errorLine (message : List Nat) : List Nat :=
  [69, 114, 114, 111, 114, 58, 32] ++ cString message ++ [10]

/-- The routine `Sys_Error`; `message` is the content of the local buffer
`string` after `qvsnprintf`. -/
def Sys_Error (O_NONBLOCK : Int) (message : List Nat) (s : ProcState) : ProcState :=
  let flags := fcntlGetfl s
  let s := fcntlSetfl s (Int.land flags (Int.lnot O_NONBLOCK))
  let s := { s with stderr := s.stderr ++ errorLine message }
  let s := Host_Shutdown s
  exitWith s 1

/-! ## Theorems about the main loop -/

/-- Whatever branch the drift test takes, the pass ends with the single call
`Host_Frame(time)`. -/
theorem driftAndDispatch_calls (oldtime newtime ticrate time : ℚ) :
    (driftAndDispatch oldtime newtime ticrate time).calls = [Call.Host_Frame time] := by
  unfold driftAndDispatch
  split <;> rfl

/-- C1. Headless pacing step: in dedicated mode, when the measured elapsed
time `newtime - oldtime` is below the tick rate the pass dispatches no frame
(it only yields with `usleep(1)`) and leaves `oldtime` unchanged; when it is
at least the tick rate the pass makes exactly one `Host_Frame` call and its
argument is exactly the tick rate. With tick rate 0.1 and measured elapsed
times 0.05, 0.06, 0.12 the passes skip, skip, and dispatch one frame of 0.1. -/
theorem headless_pacing_step (oldtime newtime ticrate : ℚ) :
    (newtime - oldtime < ticrate →
      mainIter oldtime { dedicated := true, ticrate := ticrate, newtime := newtime }
        = { oldtime := oldtime, calls := [Call.usleep 1] }) ∧
    (ticrate ≤ newtime - oldtime →
      (mainIter oldtime { dedicated := true, ticrate := ticrate, newtime := newtime }).calls
        = [Call.Host_Frame ticrate]) ∧
    (mainIter 0 { dedicated := true, ticrate := 1 / 10, newtime := 1 / 20 }
        = { oldtime := 0, calls := [Call.usleep 1] } ∧
      mainIter 0 { dedicated := true, ticrate := 1 / 10, newtime := 3 / 50 }
        = { oldtime := 0, calls := [Call.usleep 1] } ∧
      (mainIter 0 { dedicated := true, ticrate := 1 / 10, newtime := 3 / 25 }).calls
        = [Call.Host_Frame (1 / 10)] ∧
      (mainLoop 0 (headlessInputs (1 / 10) [1 / 20, 3 / 50, 3 / 25])).calls
        = [Call.usleep 1, Call.usleep 1, Call.Host_Frame (1 / 10)]) := by
  refine ⟨?_, ?_, ?_⟩
  · intro h
    simp [mainIter, h]
  · intro h
    have h2 : ¬ (newtime - oldtime < ticrate) := not_lt.mpr h
    simp [mainIter, h2, driftAndDispatch_calls]
  · refine ⟨?_, ?_, ?_, ?_⟩ <;>
      norm_num [mainLoop, headlessInputs, mainIter, driftAndDispatch, frameTimes]

/-- Witness of C1 at `oldtime = 0`, tick rate 1/10: a reading of 1/20 skips
and a reading of 3/25 dispatches one frame of 1/10. -/
theorem headless_pacing_step_witness :
    ((1 / 20 : ℚ) - 0 < 1 / 10 ∧ (1 / 10 : ℚ) ≤ 3 / 25 - 0) ∧
    mainIter 0 { dedicated := true, ticrate := 1 / 10, newtime := 1 / 20 }
        = { oldtime := 0, calls := [Call.usleep 1] } ∧
    (mainIter 0 { dedicated := true, ticrate := 1 / 10, newtime := 3 / 25 }).calls
        = [Call.Host_Frame (1 / 10)] :=
  ⟨by norm_num, (headless_pacing_step 0 (1 / 20) (1 / 10)).1 (by norm_num),
   (headless_pacing_step 0 (3 / 25) (1 / 10)).2.1 (by norm_num)⟩

/-- In dedicated mode with a non-negative tick rate, a pass that is due
advances `oldtime` by exactly the tick rate: the drift test sees the clamped
`time`, which never exceeds twice the tick rate. -/
theorem mainIter_dedicated_due (oldtime newtime ticrate : ℚ) (h0 : 0 ≤ ticrate)
    (h : ticrate ≤ newtime - oldtime) :
    mainIter oldtime { dedicated := true, ticrate := ticrate, newtime := newtime }
      = { oldtime := oldtime + ticrate, calls := [Call.Host_Frame ticrate] } := by
  have h2 : ¬ (newtime - oldtime < ticrate) := not_lt.mpr h
  have h3 : ¬ (ticrate > ticrate * 2) := by
    intro hgt
    have hgt2 : ticrate * 2 < ticrate := hgt
    linarith
  simp only [mainIter, driftAndDispatch, h2, h3, if_true, if_false]

/-- In dedicated mode a pass that is not due changes nothing and only
yields. -/
theorem mainIter_dedicated_skip (oldtime newtime ticrate : ℚ)
    (h : newtime - oldtime < ticrate) :
    mainIter oldtime { dedicated := true, ticrate := ticrate, newtime := newtime }
      = { oldtime := oldtime, calls := [Call.usleep 1] } := by
  simp [mainIter, h]

/-- In interactive mode both branches of the drift test leave
`oldtime = newtime`, and the frame gets the measured time. -/
theorem mainIter_interactive (oldtime newtime ticrate : ℚ) :
    mainIter oldtime { dedicated := false, ticrate := ticrate, newtime := newtime }
      = { oldtime := newtime, calls := [Call.Host_Frame (newtime - oldtime)] } := by
  have hm : mainIter oldtime { dedicated := false, ticrate := ticrate, newtime := newtime }
      = driftAndDispatch oldtime newtime ticrate (newtime - oldtime) := by
    simp [mainIter]
  rw [hm]
  unfold driftAndDispatch
  split
  · rfl
  · simp

/-- The frame times of a concatenated trace. -/
theorem frameTimes_append (xs ys : List Call) :
    frameTimes (xs ++ ys) = frameTimes xs ++ frameTimes ys := by
  induction xs with
  | nil => rfl
  | cons c cs ih =>
    cases c with
    | usleep u => simpa [frameTimes] using ih
    | Host_Frame t => simp [frameTimes, ih]

/-- C2 fails on the code in dedicated mode: line 304 overwrites `time` with
the tick rate before the drift test of line 306 reads it, so the test never
sees the measured elapsed time. With tick rate 1, `oldtime = 0` and a clock
reading of 5 the measured elapsed time 5 exceeds twice the tick rate and a
frame is run, yet `oldtime` ends at 1 and not at the clock reading; with the
clock standing at 5 the following passes run four more frames back to back
before the first skip. The same reading in interactive mode leaves
`oldtime = 5`. -/
theorem drift_resync_missed_in_dedicated :
    (5 : ℚ) - 0 > 2 * 1 ∧
    mainIter 0 { dedicated := true, ticrate := 1, newtime := 5 }
      = { oldtime := 1, calls := [Call.Host_Frame 1] } ∧
    (mainIter 0 { dedicated := true, ticrate := 1, newtime := 5 }).oldtime ≠ 5 ∧
    mainLoop 0 (headlessInputs 1 [5, 5, 5, 5, 5, 5])
      = { oldtime := 5,
          calls := [Call.Host_Frame 1, Call.Host_Frame 1, Call.Host_Frame 1,
            Call.Host_Frame 1, Call.Host_Frame 1, Call.usleep 1] } ∧
    (mainIter 0 { dedicated := false, ticrate := 1, newtime := 5 }).oldtime = 5 := by
  refine ⟨by norm_num, ?_, ?_, ?_, ?_⟩ <;>
    norm_num [mainLoop, headlessInputs, mainIter, driftAndDispatch]

/-- C3, as stated, fails in interactive mode: with tick rate 1, `oldtime = 0`
and a clock reading of 5 the pass measures five tick rates and hands all of it
to `Host_Frame` in one call. -/
theorem stall_dispatch_counterexample :
    (5 : ℚ) - 0 = 5 * 1 ∧
    (mainIter 0 { dedicated := false, ticrate := 1, newtime := 5 }).calls
      = [Call.Host_Frame 5] ∧
    ¬ ((5 : ℚ) < 5 * 1) := by
  refine ⟨by norm_num, ?_, by norm_num⟩
  rw [mainIter_interactive]
  norm_num

/-- C3, amended. For a positive tick rate and a pass that measures exactly
five tick rates: in dedicated mode the single `Host_Frame` call gets exactly
the tick rate, which is less than the five measured; in interactive mode the
single `Host_Frame` call gets the full measured five tick rates, and only
`oldtime` is set to the clock reading. -/
theorem stall_dispatch_amended (oldtime newtime ticrate : ℚ) (hpos : 0 < ticrate)
    (hstall : newtime - oldtime = 5 * ticrate) :
    ((mainIter oldtime { dedicated := true, ticrate := ticrate, newtime := newtime }).calls
        = [Call.Host_Frame ticrate] ∧ ticrate < 5 * ticrate) ∧
    mainIter oldtime { dedicated := false, ticrate := ticrate, newtime := newtime }
      = { oldtime := newtime, calls := [Call.Host_Frame (5 * ticrate)] } := by
  have hdue : ticrate ≤ newtime - oldtime := by linarith
  refine ⟨⟨?_, by linarith⟩, ?_⟩
  · rw [mainIter_dedicated_due oldtime newtime ticrate hpos.le hdue]
  · rw [mainIter_interactive, hstall]

/-- Witness of the amended C3 at `oldtime = 2`, tick rate 1/10, clock
reading 5/2. -/
theorem stall_dispatch_amended_witness :
    ((0 : ℚ) < 1 / 10 ∧ (5 / 2 : ℚ) - 2 = 5 * (1 / 10)) ∧
    (mainIter 2 { dedicated := true, ticrate := 1 / 10, newtime := 5 / 2 }).calls
      = [Call.Host_Frame (1 / 10)] ∧
    mainIter 2 { dedicated := false, ticrate := 1 / 10, newtime := 5 / 2 }
      = { oldtime := 5 / 2, calls := [Call.Host_Frame (5 * (1 / 10))] } :=
  ⟨⟨by norm_num, by norm_num⟩,
   (stall_dispatch_amended 2 (5 / 2) (1 / 10) (by norm_num) (by norm_num)).1.1,
   (stall_dispatch_amended 2 (5 / 2) (1 / 10) (by norm_num) (by norm_num)).2⟩

/-- C4. No accumulation of pacing error in dedicated mode: at a constant
tick rate that is not negative, after a run over any sequence of clock readings
`oldtime` equals its initial value plus the tick rate times the number of
`Host_Frame` calls made; and after each dispatching pass the remainder
`newtime - oldtime` equals the measured elapsed time minus the tick rate, so
it is measured again by the next pass. -/
theorem headless_no_pacing_error (ticrate : ℚ) (h0 : 0 ≤ ticrate) (oldtime : ℚ)
    (readings : List ℚ) :
    (mainLoop oldtime (headlessInputs ticrate readings)).oldtime
      = oldtime
        + ((frameTimes (mainLoop oldtime (headlessInputs ticrate readings)).calls).length : ℚ)
          * ticrate ∧
    (∀ newtime : ℚ, ticrate ≤ newtime - oldtime →
      newtime -
        (mainIter oldtime { dedicated := true, ticrate := ticrate, newtime := newtime }).oldtime
        = (newtime - oldtime) - ticrate) := by
  constructor
  · induction readings generalizing oldtime with
    | nil => simp [headlessInputs, mainLoop, frameTimes]
    | cons t ts ih =>
      have hcons : headlessInputs ticrate (t :: ts)
          = { dedicated := true, ticrate := ticrate, newtime := t }
            :: headlessInputs ticrate ts := rfl
      rw [hcons]
      simp only [mainLoop, frameTimes_append]
      by_cases h : t - oldtime < ticrate
      · rw [mainIter_dedicated_skip oldtime t ticrate h]
        simpa [frameTimes] using ih oldtime
      · rw [mainIter_dedicated_due oldtime t ticrate h0 (not_lt.mp h)]
        have ih2 := ih (oldtime + ticrate)
        simp only [frameTimes, List.length_append, List.length_cons, List.length_nil]
        rw [ih2]
        push_cast
        ring
  · intro newtime h
    rw [mainIter_dedicated_due oldtime newtime ticrate h0 h]
    show newtime - (oldtime + ticrate) = newtime - oldtime - ticrate
    ring

/-- Witness of C4 at tick rate 1/10, `oldtime = 0` and the clock readings
1/20, 3/25, 1/5, 1/2: three passes dispatch, `oldtime` ends at 3/10. -/
theorem headless_no_pacing_error_witness :
    (0 : ℚ) ≤ 1 / 10 ∧
    (mainLoop 0 (headlessInputs (1 / 10) [1 / 20, 3 / 25, 1 / 5, 1 / 2])).oldtime
      = 0 + ((frameTimes
          (mainLoop 0 (headlessInputs (1 / 10) [1 / 20, 3 / 25, 1 / 5, 1 / 2])).calls).length : ℚ)
          * (1 / 10) ∧
    ((1 / 10 : ℚ) ≤ 3 / 25 - 0 ∧
      3 / 25 - (mainIter 0 { dedicated := true, ticrate := 1 / 10, newtime := 3 / 25 }).oldtime
        = (3 / 25 - 0) - 1 / 10) :=
  ⟨by norm_num,
   (headless_no_pacing_error (1 / 10) (by norm_num) 0 [1 / 20, 3 / 25, 1 / 5, 1 / 2]).1,
   by norm_num,
   (headless_no_pacing_error (1 / 10) (by norm_num) 0 []).2 (3 / 25) (by norm_num)⟩

/-- C10. In interactive mode the two branches of the drift test coincide:
whatever the tick rate, a pass makes the single call `Host_Frame` with the
unclamped `newtime - oldtime` and leaves `oldtime = newtime`. Over a run,
`oldtime` is the latest clock reading and the frame times handed to
`Host_Frame` add up to the time from the initial `oldtime` to that reading. -/
theorem interactive_branches_coincide (oldtime newtime ticrate : ℚ) (readings : List ℚ) :
    mainIter oldtime { dedicated := false, ticrate := ticrate, newtime := newtime }
      = { oldtime := newtime, calls := [Call.Host_Frame (newtime - oldtime)] } ∧
    (mainLoop oldtime (interactiveInputs ticrate readings)).oldtime
      = readings.getLastD oldtime ∧
    (frameTimes (mainLoop oldtime (interactiveInputs ticrate readings)).calls).sum
      = readings.getLastD oldtime - oldtime := by
  refine ⟨mainIter_interactive oldtime newtime ticrate, ?_, ?_⟩
  · induction readings generalizing oldtime with
    | nil => simp [interactiveInputs, mainLoop]
    | cons t ts ih =>
      have hcons : interactiveInputs ticrate (t :: ts)
          = { dedicated := false, ticrate := ticrate, newtime := t }
            :: interactiveInputs ticrate ts := rfl
      rw [hcons]
      simp only [mainLoop]
      rw [mainIter_interactive oldtime t ticrate, List.getLastD_cons]
      exact ih t
  · induction readings generalizing oldtime with
    | nil => simp [interactiveInputs, mainLoop, frameTimes]
    | cons t ts ih =>
      have hcons : interactiveInputs ticrate (t :: ts)
          = { dedicated := false, ticrate := ticrate, newtime := t }
            :: interactiveInputs ticrate ts := rfl
      rw [hcons]
      simp only [mainLoop, frameTimes_append]
      rw [mainIter_interactive oldtime t ticrate]
      rw [List.getLastD_cons]
      simp only [frameTimes, List.singleton_append, List.sum_cons]
      rw [ih t]
      ring

/-! ## Theorems about `Sys_Printf` -/

/-- With `nostdout` set nothing is written. -/
theorem Sys_Printf_suppressed (text : List Nat) : Sys_Printf true text = [] := by
  simp [Sys_Printf]

/-- Both digits of an escape are lowercase hexadecimal characters, hence
printable. -/
theorem hexDigit_printable (d : Nat) (h : d < 16) : passesRaw (hexDigit d) = true := by
  interval_cases d <;> decide

/-- On every byte other than 0x7f and 0x80 the test of line 73 agrees with the
set of the specification. -/
theorem line73_test_iff (p : Nat) (h127 : p ≠ 127) (h128 : p ≠ 128) :
    ((p > 128 ∨ p < 32) ∧ p ≠ 10 ∧ p ≠ 13 ∧ p ≠ 9) ↔ passesRaw p = false := by
  simp only [passesRaw, Bool.or_eq_false_iff, Bool.and_eq_false_iff, decide_eq_false_iff_not,
    Bool.or_eq_true, Bool.and_eq_true, decide_eq_true_eq]
  omega

/-- Away from the bytes 0x7f and 0x80 the code is the sanitizer of the
specification: on a text without zero byte that holds neither of the two, the
bytes written are the renderings of the input bytes in order. -/
theorem Sys_Printf_eq_specEmit (text : List Nat) (hnul : ∀ b ∈ text, b ≠ 0)
    (hgap : ∀ b ∈ text, b ≠ 127 ∧ b ≠ 128) :
    Sys_Printf false text = specEmit text := by
  simp only [Sys_Printf, Bool.false_eq_true, if_false]
  induction text with
  | nil => rfl
  | cons p rest ih =>
    have hp0 : p ≠ 0 := hnul p (List.mem_cons_self p rest)
    have hpg := hgap p (List.mem_cons_self p rest)
    have ih2 := ih (fun b hb => hnul b (List.mem_cons_of_mem p hb))
      (fun b hb => hgap b (List.mem_cons_of_mem p hb))
    simp only [printLoop, specEmit, specRender, hp0, if_false]
    by_cases hc : (p > 128 ∨ p < 32) ∧ p ≠ 10 ∧ p ≠ 13 ∧ p ≠ 9
    · have hr : passesRaw p = false := (line73_test_iff p hpg.1 hpg.2).mp hc
      rw [if_pos hc, ih2, hr]
      simp
    · have hr : passesRaw p = true := by
        cases hv : passesRaw p with
        | true => rfl
        | false => exact absurd ((line73_test_iff p hpg.1 hpg.2).mpr hv) hc
      rw [if_neg hc, ih2, hr]
      simp

/-- The only bytes outside the set of the specification that the code ever
writes are 0x7f and 0x80: every byte written for a text of bytes is tab,
newline, carriage return, printable ASCII, or one of these two. -/
theorem Sys_Printf_output_bytes (nostdout : Bool) (text : List Nat)
    (hbyte : ∀ b ∈ text, b < 256) :
    ∀ c ∈ Sys_Printf nostdout text, passesRaw c = true ∨ c = 127 ∨ c = 128 := by
  cases nostdout with
  | true => simp [Sys_Printf]
  | false =>
    simp only [Sys_Printf, Bool.false_eq_true, if_false]
    induction text with
    | nil => simp [printLoop]
    | cons p rest ih =>
      have hp : p < 256 := hbyte p (List.mem_cons_self p rest)
      have ih2 := ih (fun b hb => hbyte b (List.mem_cons_of_mem p hb))
      intro c hc
      unfold printLoop at hc
      split at hc
      · simp at hc
      · split at hc
        · rcases List.mem_append.mp hc with hesc | hrest
          · simp only [printfEscape, List.mem_cons, List.mem_singleton, List.mem_nil_iff,
              or_false] at hesc
            left
            rcases hesc with h | h | h | h
            · rw [h]; decide
            · rw [h]; exact hexDigit_printable (p / 16) (by omega)
            · rw [h]; exact hexDigit_printable (p % 16) (by omega)
            · rw [h]; decide
          · exact ih2 c hrest
        · rcases List.mem_cons.mp hc with hraw | hrest
          · rename_i hz hcond
            rw [hraw]
            by_cases h127 : p = 127
            · right; left; exact h127
            · by_cases h128 : p = 128
              · right; right; exact h128
              · left
                cases hv : passesRaw p with
                | true => rfl
                | false => exact absurd ((line73_test_iff p h127 h128).mpr hv) hcond
          · exact ih2 c hrest

/-- C5 fails on the code at the bytes 0x7f and 0x80: the test of line 73 is
`*p > 128`, so for the one-byte texts DEL (0x7f) and 0x80 `Sys_Printf` writes
the byte raw, although neither is in the set {0x09, 0x0A, 0x0D, 0x20..0x7E};
the next byte 0x81 is escaped as `[81]`. -/
theorem Sys_Printf_raw_0x7f_0x80 :
    Sys_Printf false [127] = [127] ∧ passesRaw 127 = false ∧
    Sys_Printf false [128] = [128] ∧ passesRaw 128 = false ∧
    Sys_Printf false [129] = [91, 56, 49, 93] := by
  decide

/-! ## Theorems about `Sys_DoubleTime` -/

/-- A seconds value that fits a 32-bit `int` is stored unchanged. -/
theorem toInt32_of_fits (x : Int) (hlo : -2 ^ 31 ≤ x) (hhi : x < 2 ^ 31) : toInt32 x = x := by
  unfold toInt32
  omega

/-- Once `secbase` is not zero a call leaves it alone and returns the time
relative to it. -/
theorem Sys_DoubleTime_of_set (secbase : Int) (h : secbase ≠ 0) (tp : Timeval) :
    Sys_DoubleTime secbase tp
      = (secbase, ((tp.tv_sec - secbase : Int) : ℚ) + (tp.tv_usec : ℚ) / 1000000) := by
  simp [Sys_DoubleTime, h]

/-- Once `secbase` is not zero no later call changes it. -/
theorem secbaseHistory_of_set (secbase : Int) (h : secbase ≠ 0) (tps : List Timeval) :
    ∀ b ∈ secbaseHistory secbase tps, b = secbase := by
  induction tps with
  | nil => simp [secbaseHistory]
  | cons tp rest ih =>
    intro b hb
    simp only [secbaseHistory, Sys_DoubleTime_of_set secbase h, List.mem_cons] at hb
    rcases hb with hb | hb
    · exact hb
    · exact ih b hb

/-- When the first reading has a seconds value that is not zero and fits an
`int`, the first call stores it and returns the sub-second part only, and
every later call returns the time since that second. -/
theorem doubleTimeCalls_of_nonzero_start (tp0 : Timeval) (hne : tp0.tv_sec ≠ 0)
    (hlo : -2 ^ 31 ≤ tp0.tv_sec) (hhi : tp0.tv_sec < 2 ^ 31) (tps : List Timeval) :
    doubleTimeCalls 0 (tp0 :: tps)
      = (tp0.tv_sec,
          (tp0.tv_usec : ℚ) / 1000000
            :: tps.map (fun tp =>
                ((tp.tv_sec - tp0.tv_sec : Int) : ℚ) + (tp.tv_usec : ℚ) / 1000000)) := by
  have hgen : ∀ l : List Timeval, doubleTimeCalls tp0.tv_sec l
      = (tp0.tv_sec, l.map (fun tp =>
          ((tp.tv_sec - tp0.tv_sec : Int) : ℚ) + (tp.tv_usec : ℚ) / 1000000)) := by
    intro l
    induction l with
    | nil => rfl
    | cons tp rest ih =>
      simp only [doubleTimeCalls, Sys_DoubleTime_of_set tp0.tv_sec hne, ih, List.map_cons]
  simp only [doubleTimeCalls, Sys_DoubleTime, if_true, toInt32_of_fits tp0.tv_sec hlo hhi, hgen]

/-- With `secbase` set, the returned value does not decrease when the clock
does not move backward. -/
theorem Sys_DoubleTime_mono (secbase : Int) (h : secbase ≠ 0) (a b : Timeval)
    (hab : Timeval.le a b) (ha : a.tv_usec < 1000000) (hb0 : 0 ≤ b.tv_usec) :
    (Sys_DoubleTime secbase a).2 ≤ (Sys_DoubleTime secbase b).2 := by
  rw [Sys_DoubleTime_of_set secbase h, Sys_DoubleTime_of_set secbase h]
  show ((a.tv_sec - secbase : Int) : ℚ) + (a.tv_usec : ℚ) / 1000000
      ≤ ((b.tv_sec - secbase : Int) : ℚ) + (b.tv_usec : ℚ) / 1000000
  push_cast
  rcases hab with hlt | ⟨heq, hle⟩
  · have h1 : (a.tv_sec : ℚ) + 1 ≤ (b.tv_sec : ℚ) := by exact_mod_cast hlt
    have h2 : (a.tv_usec : ℚ) < 1000000 := by exact_mod_cast ha
    have h3 : (0 : ℚ) ≤ (b.tv_usec : ℚ) := by exact_mod_cast hb0
    have h4 : (a.tv_usec : ℚ) / 1000000 < 1 := by
      rw [div_lt_one (by norm_num)]
      exact h2
    have h5 : (0 : ℚ) ≤ (b.tv_usec : ℚ) / 1000000 := div_nonneg h3 (by norm_num)
    linarith
  · have h1 : (a.tv_usec : ℚ) ≤ (b.tv_usec : ℚ) := by exact_mod_cast hle
    have h2 : (a.tv_usec : ℚ) / 1000000 ≤ (b.tv_usec : ℚ) / 1000000 :=
      div_le_div_of_nonneg_right h1 (by norm_num)
    rw [heq]
    linarith

/-- C6 fails on the code when the clock reads second 0: `secbase` stays 0
after the first call, so the test `!secbase` takes the first-call branch
again. For the readings (0 s, 500000 us), (0 s, 600000 us), (1 s, 0 us), which
never move backward, the calls return 1/2, 3/5 and 0: the third call returns
less than the second. -/
theorem Sys_DoubleTime_decreases_from_second_zero :
    Timeval.le ⟨0, 500000⟩ ⟨0, 600000⟩ ∧ Timeval.le ⟨0, 600000⟩ ⟨1, 0⟩ ∧
    doubleTimeCalls 0 [⟨0, 500000⟩, ⟨0, 600000⟩, ⟨1, 0⟩] = (1, [1 / 2, 3 / 5, 0]) ∧
    (0 : ℚ) < 3 / 5 := by
  refine ⟨by decide, by decide, ?_, by norm_num⟩
  norm_num [doubleTimeCalls, Sys_DoubleTime, toInt32]

/-- C7 fails on the code when the first reading has seconds value 0, or one
that does not fit the `int` holding the epoch. For the readings (0 s,
500000 us), (5 s, 250000 us) the epoch is still unset after the first call and
is set by the second call, which returns 1/4 and not (5 - 0) + 1/4. For the
readings (2147483648 s, 0 us), (2147483649 s, 0 us) the epoch stored is
-2147483648, and the second call returns 4294967297 and not 1. -/
theorem Sys_DoubleTime_epoch_set_late :
    secbaseHistory 0 [⟨0, 500000⟩, ⟨5, 250000⟩] = [0, 5] ∧
    (doubleTimeCalls 0 [⟨0, 500000⟩, ⟨5, 250000⟩]).2 = [1 / 2, 1 / 4] ∧
    ((5 - 0 : Int) : ℚ) + (250000 : ℚ) / 1000000 ≠ 1 / 4 ∧
    doubleTimeCalls 0 [⟨2147483648, 0⟩, ⟨2147483649, 0⟩]
      = (-2147483648, [0, 4294967297]) := by
  refine ⟨?_, ?_, by norm_num, ?_⟩ <;>
    norm_num [secbaseHistory, doubleTimeCalls, Sys_DoubleTime, toInt32]

/-! ## Theorems about `Sys_ConsoleInput` -/

/-- A zero byte ends the C string: what follows it in the buffer is not part
of the string. -/
theorem cString_append_zero (body rest : List Nat) :
    cString (body ++ 0 :: rest) = cString body := by
  induction body with
  | nil => simp [cString]
  | cons b bs ih =>
    unfold cString at ih ⊢
    by_cases hb : b = 0
    · simp [List.takeWhile, hb]
    · simp only [List.cons_append, List.takeWhile, hb, ne_eq, not_false_eq_true, decide_True]
      exact congrArg (List.cons b) ih

/-- A byte sequence without zero byte is its own C string. -/
theorem cString_of_no_zero (body : List Nat) (h : ∀ b ∈ body, b ≠ 0) : cString body = body := by
  unfold cString
  rw [List.takeWhile_eq_self_iff]
  intro b hb
  simpa using h b hb

/-- Outside dedicated mode the call returns `NULL` whatever is pending. -/
theorem Sys_ConsoleInput_not_dedicated (selectRet : Int) (fdIsSet : Bool) (rd : ReadResult)
    (text : List Nat) :
    Sys_ConsoleInput false selectRet fdIsSet rd text = (none, text) := by
  simp [Sys_ConsoleInput]

/-- The assignment `text[len - 1] = 0` overwrites the last byte read, whatever
it is: the returned string is the C string of the bytes read without the
last one. -/
theorem Sys_ConsoleInput_bytes (selectRet : Int) (hsel : selectRet ≠ -1) (body : List Nat)
    (last : Nat) (text : List Nat) :
    Sys_ConsoleInput true selectRet true (ReadResult.bytes (body ++ [last])) text
      = (some (cString body),
          body ++ 0 :: text.drop (body.length + 1)) := by
  have hlen : ¬ (((body ++ [last]).length : Int) < 1) := by
    simp only [List.length_append, List.length_singleton]
    omega
  have hidx : (((body ++ [last]).length : Int) - 1).toNat = body.length := by
    simp only [List.length_append, List.length_singleton]
    omega
  have hset : ((body ++ [last]) ++ text.drop (body ++ [last]).length).set body.length 0
      = body ++ 0 :: text.drop (body.length + 1) := by
    rw [List.append_assoc, List.set_append_right _ _ (le_refl _)]
    simp
  simp only [Sys_ConsoleInput, ReadResult.store, ReadResult.len, hsel, hlen, hidx, hset,
    cString_append_zero]
  simp

/-- C8, as stated, fails when more than one line is buffered: a read that
returns the four bytes `a`, newline, `b`, newline yields the single string
`a`, newline, `b`, which contains a line terminator; the second line is
handed out by this call and not by a later one. -/
theorem Sys_ConsoleInput_counterexample :
    (Sys_ConsoleInput true 1 true (ReadResult.bytes [97, 10, 98, 10]) (List.replicate 256 0)).1
      = some [97, 10, 98] ∧
    newline ∈ [97, 10, 98] := by
  decide

/-- The last byte read is dropped also when it is no line terminator: a read
that returns the two bytes `a`, `b` yields the string `a`. -/
theorem Sys_ConsoleInput_drops_last_byte :
    (Sys_ConsoleInput true 1 true (ReadResult.bytes [97, 98]) (List.replicate 256 0)).1
      = some [97] := by
  decide

/-- C8, amended. In dedicated mode with standard input ready, for every read
into the 256-byte buffer that returns at least one byte and ends in a line
terminator, the returned string is the bytes read before that final
terminator, up to the first zero byte if there is one; when they hold no zero
byte the string is exactly those bytes, none dropped, line terminators of
earlier lines included. -/
theorem Sys_ConsoleInput_amended (selectRet : Int) (hsel : selectRet ≠ -1) (body : List Nat)
    (text : List Nat) (htext : text.length = 256) (hfit : (body ++ [newline]).length ≤ 256) :
    (Sys_ConsoleInput true selectRet true (ReadResult.bytes (body ++ [newline])) text).1
      = some (cString body) ∧
    ((∀ b ∈ body, b ≠ 0) →
      (Sys_ConsoleInput true selectRet true (ReadResult.bytes (body ++ [newline])) text).1
        = some body) ∧
    (Sys_ConsoleInput true selectRet true (ReadResult.bytes (body ++ [newline])) text).2.length
      = 256 := by
  rw [Sys_ConsoleInput_bytes selectRet hsel body newline text]
  refine ⟨rfl, ?_, ?_⟩
  · intro h
    show some (cString body) = some body
    rw [cString_of_no_zero body h]
  · show (body ++ 0 :: text.drop (body.length + 1)).length = 256
    simp only [List.length_append, List.length_singleton] at hfit
    simp only [List.length_append, List.length_cons, List.length_drop, htext]
    omega

/-- Witness of the amended C8: a read of `a`, `b`, newline into a cleared
buffer yields the string `a`, `b`. -/
theorem Sys_ConsoleInput_amended_witness :
    ((1 : Int) ≠ -1 ∧ (List.replicate 256 0).length = 256 ∧
      ([97, 98] ++ [newline]).length ≤ 256 ∧ ∀ b ∈ [97, 98], b ≠ 0) ∧
    (Sys_ConsoleInput true 1 true (ReadResult.bytes ([97, 98] ++ [newline]))
        (List.replicate 256 0)).1 = some [97, 98] :=
  ⟨⟨by decide, List.length_replicate 256 0, by decide, by decide⟩,
   (Sys_ConsoleInput_amended 1 (by decide) [97, 98] (List.replicate 256 0)
      (List.length_replicate 256 0) (by decide)).2.1 (by decide)⟩

/-! ## Theorems about `Sys_Quit` and `Sys_Error` -/

/-- Bit `i` of `flags & ~mask` is bit `i` of `flags` where the mask has a zero
and is clear where the mask has a one. -/
theorem testBit_land_lnot (flags mask : Int) (i : Nat) :
    (Int.land flags (Int.lnot mask)).testBit i = (flags.testBit i && !mask.testBit i) := by
  rw [Int.testBit_land, Int.testBit_lnot]

/-- C9. Descriptor restoration on both termination paths: from every state,
`Sys_Error` and `Sys_Quit` end with each bit of `O_NONBLOCK` cleared in the
flags of standard input and every other flag bit unchanged, with exactly one
more call of `Host_Shutdown` than before, and with exit status 1 for
`Sys_Error` and 0 for `Sys_Quit`. -/
theorem termination_restores_stdin (O_NONBLOCK : Int) (message : List Nat) (s : ProcState)
    (i : Nat) :
    ((Sys_Error O_NONBLOCK message s).stdinFlags.testBit i
        = (s.stdinFlags.testBit i && !O_NONBLOCK.testBit i) ∧
      (Sys_Error O_NONBLOCK message s).shutdowns = s.shutdowns + 1 ∧
      (Sys_Error O_NONBLOCK message s).exitStatus = some 1) ∧
    ((Sys_Quit O_NONBLOCK s).stdinFlags.testBit i
        = (s.stdinFlags.testBit i && !O_NONBLOCK.testBit i) ∧
      (Sys_Quit O_NONBLOCK s).shutdowns = s.shutdowns + 1 ∧
      (Sys_Quit O_NONBLOCK s).exitStatus = some 0) := by
  refine ⟨⟨?_, rfl, rfl⟩, ⟨?_, rfl, rfl⟩⟩
  · exact testBit_land_lnot s.stdinFlags O_NONBLOCK i
  · exact testBit_land_lnot s.stdinFlags O_NONBLOCK i

end SysUnix
